import Mathlib

/-!
Shallow embedding of the restaurant-collection pipeline
(`restaurant_agent.py`, `restaurants_agent.py`): raw Yelp listings,
the normalizer `transform_to_restaurant`, the two fetch variants
`search_restaurants`, the deduplicating writer `store_restaurants` /
`collect_restaurants`, and the message handler
`handle_location_request`.

Python dictionaries with optional keys become structures of `Option`
fields; a `d['k']` subscript on a possibly-missing key becomes a
lookup in the `Except` monad (Python `KeyError`), while `d.get('k',
default)` becomes `Option.getD`.  Numeric payloads (coordinates,
rating) are carried as `Int`: the code only passes them through, never
computes with them, so the carrier type is irrelevant to every
property proved here.  Timestamps (`datetime.now().isoformat()`)
become an explicit clock parameter `now : Nat`.
-/

namespace RestaurantPipeline

/-- String constant for the literal fallback cuisine used by
`transform_to_restaurant`. -/
def unknownCuisine : String := "Unknown"

/-- String constant for the join separator used to build the address. -/
def commaSep : String := ", "

/-- String constant standing for a Python `KeyError` message. -/
def keyError : String := "KeyError"

/-- Character constant for the slash replaced in restaurant names. -/
def slashChar : Char := '/'

/-- Character constant for the space that replaces each slash. -/
def spaceChar : Char := ' '

/-- One element of a raw listing's `categories` array: a dict whose
`title` key may be absent (the code subscripts `cat['title']`). -/
structure Category where
  title : Option String
deriving DecidableEq

/-- The raw listing's `coordinates` dict; `latitude` / `longitude` may
be absent (the code subscripts both). -/
structure Coordinates where
  latitude : Option Int
  longitude : Option Int
deriving DecidableEq

/-- The raw listing's `location` dict; `display_address` is read with
`.get('display_address', [])`, so it may be absent. -/
structure YelpLocation where
  display_address : Option (List String)
deriving DecidableEq

/-- A raw Yelp business listing as consumed by the pipeline.  Every
field may be absent: the external API guarantees nothing. -/
structure RawListing where
  id : Option String
  name : Option String
  coordinates : Option Coordinates
  location : Option YelpLocation
  url : Option String
  categories : Option (List Category)
  phone : Option String
  rating : Option Int
  price : Option String
  image_url : Option String
  review_count : Option Int
  transactions : Option (List String)
deriving DecidableEq

/-- The dictionary built by `transform_to_restaurant`: the canonical
restaurant record that is upserted into the store. -/
structure Restaurant where
  name : String
  location : Int × Int
  address : String
  link : Option String
  cuisine : List String
  main_cuisine : String
  phone : Option String
  rating : Option Int
  price : Option String
  image_url : Option String
  review_count : Option Int
  transactions : List String
  yelp_id : Option String
  created_at : Nat
  updated_at : Nat
deriving DecidableEq

/-- Embedding of a Python subscript `d['k']`: yields the value when
the key is present and raises `KeyError` otherwise. -/
def getKey {α : Type} (o : Option α) : Except String α :=
  match o with
  | some v => Except.ok v
  | none => Except.error keyError

/-- Embedding of Python `s.replace(old, new)` for a one-character
pattern: every occurrence of `old` is one character, so the scan is a
character-wise substitution. -/
def pyReplaceChar (old new : Char) (s : String) : String :=
  String.mk (s.data.map (fun c => if c = old then new else c))

/-- Embedding of `transform_to_restaurant(business)` from
`restaurant_agent.py` lines 121-144 (identical in
`restaurants_agent.py` lines 71-94).  The listing's `name`,
`coordinates` (with both sub-keys), `location`, and each category's
`title` are hard subscripts and raise `KeyError` when absent; all
other fields go through `.get` with a default.  `now` stands for the
value of `datetime.now().isoformat()` during this call. -/
def transform_to_restaurant (business : RawListing) (now : Nat) :
    Except String Restaurant := do
  let cuisines ← (business.categories.getD []).mapM (fun cat => getKey cat.title)
  let nm ← getKey business.name
  let coords ← getKey business.coordinates
  let lat ← getKey coords.latitude
  let lon ← getKey coords.longitude
  let loc ← getKey business.location
  return {
    name := pyReplaceChar slashChar spaceChar nm
    location := (lat, lon)
    address := String.intercalate commaSep (loc.display_address.getD [])
    link := business.url
    cuisine := cuisines
    main_cuisine := cuisines.headD unknownCuisine
    phone := business.phone
    rating := business.rating
    price := business.price
    image_url := business.image_url
    review_count := business.review_count
    transactions := business.transactions.getD []
    yelp_id := business.id
    created_at := now
    updated_at := now }

/-- The decoded JSON body of a search response; the `businesses` key
may be absent, in which case `.get('businesses', [])` yields `[]`. -/
structure SearchBody where
  businesses : Option (List RawListing)
deriving DecidableEq

/-- The observable outcome of the outbound HTTP call made by a fetch:
either the transport raised an exception, or a response arrived with a
status code and a body that either decodes as JSON (`some`) or makes
`response.json()` raise (`none`). -/
inductive FetchOutcome where
  | exn (msg : String)
  | response (status : Nat) (body : Option SearchBody)
deriving DecidableEq

/-- Embedding of the async `search_restaurants` from
`restaurant_agent.py` lines 94-119: on status 200 it returns the
decoded body's `businesses` (default `[]`); on any other status it
logs and returns `[]`; any exception inside the `try` (transport or
JSON decoding) is caught and yields `[]`. -/
def search_restaurants : FetchOutcome → List RawListing
  | FetchOutcome.exn _ => []
  | FetchOutcome.response status body =>
    if status = 200 then
      match body with
      | none => []
      | some b => b.businesses.getD []
    else []

/-- Embedding of the sync `YelpRestaurantAgent.search_restaurants`
from `restaurants_agent.py` lines 50-69: `requests` raises inside the
`try` on transport failure; `response.raise_for_status()` raises
exactly when the status is in 400..599; otherwise
`response.json().get('businesses', [])` is returned, with a JSON
decoding failure also caught and absorbed as `[]`. -/
def sync_search_restaurants : FetchOutcome → List RawListing
  | FetchOutcome.exn _ => []
  | FetchOutcome.response status body =>
    if 400 ≤ status ∧ status < 600 then []
    else
      match body with
      | none => []
      | some b => b.businesses.getD []

/-- Ambient behaviour of the collaborators during one process
lifetime: the clock value used for timestamps and whether the store's
`upsert(...).execute()` call succeeds on a given record. -/
structure Env where
  now : Nat
  upsertOk : Restaurant → Bool

/-- The mutable state touched by the writer: the process-lifetime
`seen_restaurants` set and the ordered log of upsert calls issued to
the store, each tagged with whether the call succeeded. -/
structure StoreState where
  seen : List String
  calls : List (Restaurant × Bool)
deriving DecidableEq

/-- State at process start: `seen_restaurants = set()` and no store
calls issued yet. -/
def initState : StoreState := { seen := [], calls := [] }

/-- Embedding of one iteration of the loop body of
`store_restaurants` (`restaurant_agent.py` lines 148-162; the loop in
`collect_restaurants`, `restaurants_agent.py` lines 103-120, is
identical).  The whole body sits in a `try` whose `except` logs and
continues: a missing `id` key raises before anything happens; a seen
id skips the body; otherwise the id is added to `seen_restaurants`
first, then the listing is transformed (a `KeyError` here is caught
with the id already recorded), then the upsert is issued (a store
error is likewise caught after the call). -/
def store_one (env : Env) (s : StoreState) (business : RawListing) : StoreState :=
  match business.id with
  | none => s
  | some bid =>
    if bid ∈ s.seen then s
    else
      let s1 : StoreState := { s with seen := bid :: s.seen }
      match transform_to_restaurant business env.now with
      | Except.error _ => s1
      | Except.ok r => { s1 with calls := s1.calls ++ [(r, env.upsertOk r)] }

/-- Embedding of `store_restaurants(ctx, restaurants)` from
`restaurant_agent.py` lines 146-162: folds the loop body over the
batch in order.  The Python function has no `return` statement, so its
return value is `None`, modelled as the constant `none`. -/
def store_restaurants (env : Env) (s : StoreState) (restaurants : List RawListing) :
    StoreState × Option Nat :=
  (restaurants.foldl (store_one env) s, none)

/-- State after a sequence of batches processed from process start,
one `store_restaurants` call per batch, all within one process
lifetime (one `seen_restaurants` set). -/
def runBatches (env : Env) (batches : List (List RawListing)) : StoreState :=
  batches.foldl (fun s batch => (store_restaurants env s batch).1) initState

/-- Upsert calls issued for a given external id, extracted from a call
log. -/
def callsOf (i : String) (cs : List (Restaurant × Bool)) : List (Restaurant × Bool) :=
  cs.filter (fun c => decide (c.1.yelp_id = some i))

/-- Writer invariant tying the call log to `seen_restaurants`: at most
one upsert call has ever been issued per external id, and any id with
an issued call is in the seen set. -/
def GoodState (seen : List String) (cs : List (Restaurant × Bool)) : Prop :=
  ∀ i : String, (callsOf i cs).length ≤ 1 ∧ (callsOf i cs ≠ [] → i ∈ seen)

/-- The `RestaurantMessage` reply model of `restaurant_agent.py`:
the raw businesses list plus the echoed user id. -/
structure RestaurantMessage where
  restaurants : List RawListing
  user_id : String
deriving DecidableEq

/-- Embedding of `handle_location_request` (`restaurant_agent.py`
lines 64-92) after the fetch: `restaurants` is what
`search_restaurants` returned, `updateOk` is whether the `users` table
update succeeds.  An empty fetch result is falsy, so the handler only
logs and sends nothing; on a non-empty result the `try` block updates
the user row, stores the batch, and sends the reply — a failing update
raises before both the store and the send, which the `except` absorbs.
The result is the message sent (if any) and the writer state. -/
def handle_location_request (env : Env) (s : StoreState) (updateOk : Bool)
    (restaurants : List RawListing) (user_id : String) :
    Option RestaurantMessage × StoreState :=
  if restaurants.isEmpty then (none, s)
  else if updateOk then
    (some { restaurants := restaurants, user_id := user_id },
     (store_restaurants env s restaurants).1)
  else (none, s)

/-- The canonical record `transform_to_restaurant` builds once all
hard subscripts have succeeded, written out as a function of the
extracted values; `transform_intro` proves it is exactly what the
transform returns. -/
def mkRestaurant (b : RawListing) (now : Nat) (nm : String) (lat lon : Int)
    (loc : YelpLocation) (cuisines : List String) : Restaurant :=
  { name := pyReplaceChar slashChar spaceChar nm
    location := (lat, lon)
    address := String.intercalate commaSep (loc.display_address.getD [])
    link := b.url
    cuisine := cuisines
    main_cuisine := cuisines.headD unknownCuisine
    phone := b.phone
    rating := b.rating
    price := b.price
    image_url := b.image_url
    review_count := b.review_count
    transactions := b.transactions.getD []
    yelp_id := b.id
    created_at := now
    updated_at := now }

/-- Erase the transform-time timestamps of a record, for stating that
two normalizations agree on everything else. -/
def stripTimes (r : Restaurant) : Restaurant :=
  { r with created_at := 0, updated_at := 0 }

/-- Sample category title. -/
def dinerStr : String := "Diner"

/-- Sample category title. -/
def americanStr : String := "American"

/-- Sample category carrying the title used first. -/
def dinerCat : Category := { title := some dinerStr }

/-- Sample category carrying the title listed second. -/
def americanCat : Category := { title := some americanStr }

/-- Sample raw name containing a slash. -/
def sampleName : String := "Joes/Diner"

/-- Sample location dict with a two-line display address. -/
def sampleLoc : YelpLocation :=
  { display_address := some [r"123 Main St", r"Santa Monica, CA 90401"] }

/-- Sample raw listing with every hard-subscripted field present. -/
def sampleListing : RawListing := {
  id := some (r"abc")
  name := some sampleName
  coordinates := some { latitude := some 34, longitude := some (-118) }
  location := some sampleLoc
  url := none
  categories := some [dinerCat, americanCat]
  phone := none
  rating := some 45
  price := none
  image_url := none
  review_count := none
  transactions := none }

/-- The canonical record produced from `sampleListing` at clock 0. -/
def sampleRestaurant : Restaurant := {
  name := "Joes Diner"
  location := (34, -118)
  address := "123 Main St, Santa Monica, CA 90401"
  link := none
  cuisine := [dinerStr, americanStr]
  main_cuisine := dinerStr
  phone := none
  rating := some 45
  price := none
  image_url := none
  review_count := none
  transactions := []
  yelp_id := some (r"abc")
  created_at := 0
  updated_at := 0 }

/-- A listing with `name` and full `coordinates` present but the
`location` key absent. -/
def noLocListing : RawListing := { sampleListing with location := none }

/-- Sample decoded search body holding one business. -/
def sampleBody : SearchBody := { businesses := some [sampleListing] }

/-- Environment in which every store upsert succeeds, at clock 0. -/
def envAllOk : Env := { now := 0, upsertOk := fun _ => true }

/-- Single-line street address. -/
def oneLineAddr : String := "1 First St"

/-- Location dict holding exactly one display-address line. -/
def locA : YelpLocation := { display_address := some [oneLineAddr] }

/-- Sample category title. -/
def thaiStr : String := "Thai"

/-- Well-formed listing with external id a1. -/
def listingA : RawListing := {
  id := some (r"a1")
  name := some (r"Alpha")
  coordinates := some { latitude := some 1, longitude := some 2 }
  location := some locA
  url := none
  categories := some [{ title := some thaiStr }]
  phone := none
  rating := none
  price := none
  image_url := none
  review_count := none
  transactions := none }

/-- Listing with external id a2 whose `coordinates` key is absent, so
its transform raises. -/
def listingBad : RawListing :=
  { listingA with id := some (r"a2"), name := some (r"Beta"), coordinates := none }

/-- A later, fully well-formed occurrence of external id a2. -/
def listingBadRetry : RawListing :=
  { listingA with id := some (r"a2"), name := some (r"BetaRetry") }

/-- Well-formed listing with external id a3. -/
def listingC : RawListing :=
  { listingA with id := some (r"a3"), name := some (r"Gamma") }

/-- A second listing carrying the same external id a1 as `listingA`. -/
def listingADup : RawListing := { listingA with name := some (r"AlphaDup") }

/-- External id of `listingA`. -/
def idA : String := "a1"

/-- External id of `listingBad`. -/
def idB : String := "a2"

/-- The canonical record produced from `listingA` at clock 0. -/
def restA : Restaurant := {
  name := "Alpha"
  location := (1, 2)
  address := oneLineAddr
  link := none
  cuisine := [thaiStr]
  main_cuisine := thaiStr
  phone := none
  rating := none
  price := none
  image_url := none
  review_count := none
  transactions := []
  yelp_id := some (r"a1")
  created_at := 0
  updated_at := 0 }

/-- The canonical record produced from `listingC` at clock 0. -/
def restC : Restaurant := { restA with name := "Gamma", yelp_id := some (r"a3") }

/-- Inversion of a successful transform: every hard-subscripted key was present and the result is exactly the canonical record built from the extracted values. -/
theorem transform_ok_elim {b : RawListing} {now : Nat} {r : Restaurant}
    (h : transform_to_restaurant b now = Except.ok r) :
    ∃ nm coords lat lon loc cuisines,
      b.name = some nm ∧ b.coordinates = some coords ∧
      coords.latitude = some lat ∧ coords.longitude = some lon ∧
      b.location = some loc ∧
      (b.categories.getD []).mapM (fun cat => getKey cat.title) = Except.ok cuisines ∧
      r = mkRestaurant b now nm lat lon loc cuisines := by
  unfold transform_to_restaurant at h
  cases hm : (b.categories.getD []).mapM (fun cat => getKey cat.title) with
  | error e => rw [hm] at h; simp only [Bind.bind, Except.bind] at h; exact Except.noConfusion h
  | ok cuisines =>
    rw [hm] at h
    cases hn : b.name with
    | none => simp [getKey, Bind.bind, Except.bind, Functor.map, Except.map, hn] at h
    | some nm =>
      cases hc : b.coordinates with
      | none => simp [getKey, Bind.bind, Except.bind, Functor.map, Except.map, hn, hc] at h
      | some coords =>
        cases hla : coords.latitude with
        | none => simp [getKey, Bind.bind, Except.bind, Functor.map, Except.map, hn, hc, hla] at h
        | some lat =>
          cases hlo : coords.longitude with
          | none => simp [getKey, Bind.bind, Except.bind, Functor.map, Except.map, hn, hc, hla, hlo] at h
          | some lon =>
            cases hl : b.location with
            | none => simp [getKey, Bind.bind, Except.bind, Functor.map, Except.map, hn, hc, hla, hlo, hl] at h
            | some loc =>
              simp only [getKey, Bind.bind, Except.bind, Functor.map, Except.map, hn, hc, hla,
                hlo, hl] at h
              refine ⟨nm, coords, lat, lon, loc, cuisines, rfl, rfl, hla, hlo, rfl, rfl, ?_⟩
              cases h
              rfl

/-- Introduction form of a successful transform: when every hard-subscripted key is present, the transform returns the canonical record. -/
theorem transform_intro (b : RawListing) (now : Nat) (nm : String) (coords : Coordinates)
    (lat lon : Int) (loc : YelpLocation) (cuisines : List String)
    (hn : b.name = some nm) (hc : b.coordinates = some coords)
    (hla : coords.latitude = some lat) (hlo : coords.longitude = some lon)
    (hl : b.location = some loc)
    (hm : (b.categories.getD []).mapM (fun cat => getKey cat.title) = Except.ok cuisines) :
    transform_to_restaurant b now = Except.ok (mkRestaurant b now nm lat lon loc cuisines) := by
  unfold transform_to_restaurant
  rw [hm]
  simp [getKey, Bind.bind, Except.bind, Functor.map, Except.map, hn, hc, hla, hlo, hl,
    mkRestaurant, pure, Except.pure]

/-- Inversion of the cuisine extraction on a non-empty category list: the head category has a title, and the extracted titles start with it. -/
theorem mapM_getKey_cons_elim {c : Category} {cs : List Category} {ts : List String}
    (h : (c :: cs).mapM (fun cat => getKey cat.title) = Except.ok ts) :
    ∃ t ts2, c.title = some t ∧
      cs.mapM (fun cat => getKey cat.title) = Except.ok ts2 ∧ ts = t :: ts2 := by
  rw [List.mapM_cons] at h
  cases ht : c.title with
  | none => rw [ht] at h; simp [getKey, Bind.bind, Except.bind] at h
  | some t =>
    rw [ht] at h
    cases hm : cs.mapM (fun cat => getKey cat.title) with
    | error e => rw [hm] at h; simp [getKey, Bind.bind, Except.bind] at h
    | ok ts2 =>
      rw [hm] at h
      simp [getKey, Bind.bind, Except.bind, pure, Except.pure] at h
      exact ⟨t, ts2, rfl, rfl, h.symm⟩

/-- The cuisine extraction succeeds exactly when every category in the list carries a title. -/
theorem mapM_getKey_ok_iff (cats : List Category) :
    (∃ ts, cats.mapM (fun cat => getKey cat.title) = Except.ok ts) ↔
      ∀ cat ∈ cats, (cat.title).isSome = true := by
  induction cats with
  | nil => exact ⟨fun _ cat hcat => absurd hcat (List.not_mem_nil cat), fun _ => ⟨[], rfl⟩⟩
  | cons c cs ih =>
    constructor
    · rintro ⟨ts, hts⟩
      obtain ⟨t, ts2, ht, hm, -⟩ := mapM_getKey_cons_elim hts
      intro cat hcat
      rcases List.mem_cons.mp hcat with h1 | h1
      · rw [h1, ht]; rfl
      · exact (ih.mp ⟨ts2, hm⟩) cat h1
    · intro hall
      obtain ⟨ts2, hm⟩ := ih.mpr (fun cat hcat => hall cat (List.mem_cons_of_mem c hcat))
      obtain ⟨t, ht⟩ := Option.isSome_iff_exists.mp (hall c (List.mem_cons_self c cs))
      refine ⟨t :: ts2, ?_⟩
      rw [List.mapM_cons, ht, hm]
      simp [getKey, Bind.bind, Except.bind, pure, Except.pure]

/-- A successfully transformed record carries the listing external id as its conflict key. -/
theorem transform_yelp_id {b : RawListing} {now : Nat} {r : Restaurant}
    (h : transform_to_restaurant b now = Except.ok r) : r.yelp_id = b.id := by
  obtain ⟨nm, coords, lat, lon, loc, cuisines, -, -, -, -, -, -, hr⟩ := transform_ok_elim h
  subst hr
  rfl

/-- Processing one listing never removes an id from the seen set. -/
theorem store_one_seen_sub {env : Env} {s : StoreState} {b : RawListing} {x : String}
    (hx : x ∈ s.seen) : x ∈ (store_one env s b).seen := by
  unfold store_one
  cases b.id with
  | none => exact hx
  | some bid =>
    by_cases hb : bid ∈ s.seen
    · simp [hb, hx]
    · cases ht : transform_to_restaurant b env.now <;>
        simp [hb, ht, List.mem_cons] <;> exact Or.inr hx

/-- Any id in the seen set after processing one listing was already seen or is that listing id. -/
theorem store_one_seen_from {env : Env} {s : StoreState} {b : RawListing} {x : String}
    (hx : x ∈ (store_one env s b).seen) : x ∈ s.seen ∨ b.id = some x := by
  unfold store_one at hx
  cases hb : b.id with
  | none => rw [hb] at hx; exact Or.inl hx
  | some bid =>
    rw [hb] at hx
    by_cases hmem : bid ∈ s.seen
    · simp [hmem] at hx; exact Or.inl hx
    · cases ht : transform_to_restaurant b env.now <;>
        rw [ht] at hx <;> simp [hmem, List.mem_cons] at hx <;>
        rcases hx with h1 | h1
      · exact Or.inr (by rw [h1])
      · exact Or.inl h1
      · exact Or.inr (by rw [h1])
      · exact Or.inl h1

/-- Processing one listing only appends to the upsert-call log. -/
theorem store_one_calls_extend (env : Env) (s : StoreState) (b : RawListing) :
    ∃ t, (store_one env s b).calls = s.calls ++ t := by
  unfold store_one
  cases b.id with
  | none => exact ⟨[], by simp⟩
  | some bid =>
    by_cases hb : bid ∈ s.seen
    · simp [hb]
    · cases ht : transform_to_restaurant b env.now with
      | error e => exact ⟨[], by simp [hb, ht]⟩
      | ok r => exact ⟨[(r, env.upsertOk r)], by simp [hb, ht]⟩

/-- A listing whose id is already in the seen set leaves the writer state unchanged. -/
theorem store_one_skip {env : Env} {s : StoreState} {z : RawListing} {i : String}
    (hz : z.id = some i) (hi : i ∈ s.seen) : store_one env s z = s := by
  unfold store_one
  rw [hz]
  simp [hi]

/-- Extraction of calls for an id distributes over appending call logs. -/
theorem callsOf_append (i : String) (cs t : List (Restaurant × Bool)) :
    callsOf i (cs ++ t) = callsOf i cs ++ callsOf i t :=
  List.filter_append _ _

/-- A singleton call whose record carries the id is kept by the extraction. -/
theorem callsOf_single_eq {r : Restaurant} {ok : Bool} {i : String}
    (hid : r.yelp_id = some i) : callsOf i [(r, ok)] = [(r, ok)] := by
  simp [callsOf, hid]

/-- A singleton call whose record carries a different id is dropped by the extraction. -/
theorem callsOf_single_ne {r : Restaurant} {ok : Bool} {i bid : String}
    (hid : r.yelp_id = some bid) (hi : i ≠ bid) : callsOf i [(r, ok)] = [] := by
  simp [callsOf, hid]
  exact fun h => hi h.symm

/-- The writer invariant holds at process start. -/
theorem good_init : GoodState initState.seen initState.calls := by
  intro i
  constructor <;> simp [callsOf, initState]

/-- Adding an id to the seen set preserves the writer invariant. -/
theorem good_insert_seen {se : List String} {cs : List (Restaurant × Bool)} {bid : String}
    (h : GoodState se cs) : GoodState (bid :: se) cs := by
  intro i
  exact ⟨(h i).1, fun hne => List.mem_cons.mpr (Or.inr ((h i).2 hne))⟩

/-- Recording a first upsert call for an unseen id while marking it seen preserves the writer invariant. -/
theorem good_add_call {se : List String} {cs : List (Restaurant × Bool)} {bid : String}
    {r : Restaurant} {ok : Bool}
    (h : GoodState se cs) (hnew : bid ∉ se) (hid : r.yelp_id = some bid) :
    GoodState (bid :: se) (cs ++ [(r, ok)]) := by
  intro i
  by_cases hi : i = bid
  · subst hi
    have hempty : callsOf i cs = [] := by
      by_contra hne
      exact hnew ((h i).2 hne)
    constructor
    · rw [callsOf_append, hempty, callsOf_single_eq hid]
      simp
    · intro _
      exact List.mem_cons_self _ _
  · have hsingle : callsOf i [(r, ok)] = [] := callsOf_single_ne hid hi
    constructor
    · rw [callsOf_append, hsingle]
      simpa using (h i).1
    · intro hne
      rw [callsOf_append, hsingle, List.append_nil] at hne
      exact List.mem_cons.mpr (Or.inr ((h i).2 hne))

/-- The loop body of the writer preserves the writer invariant. -/
theorem store_one_good {env : Env} {s : StoreState} {b : RawListing}
    (h : GoodState s.seen s.calls) :
    GoodState (store_one env s b).seen (store_one env s b).calls := by
  unfold store_one
  cases hid : b.id with
  | none => exact h
  | some bid =>
    by_cases hb : bid ∈ s.seen
    · simpa [hb] using h
    · cases ht : transform_to_restaurant b env.now with
      | error e => simpa [hb, ht] using good_insert_seen h
      | ok r =>
        have hrid : r.yelp_id = some bid := by rw [transform_yelp_id ht, hid]
        simpa [hb, ht] using good_add_call h hb hrid

/-- Folding the writer loop body over a batch preserves the writer invariant. -/
theorem foldl_good {env : Env} {s : StoreState} (h : GoodState s.seen s.calls)
    (ls : List RawListing) :
    GoodState (ls.foldl (store_one env) s).seen (ls.foldl (store_one env) s).calls := by
  induction ls generalizing s with
  | nil => exact h
  | cons b bs ih => exact ih (store_one_good h)

/-- Ids in the seen set stay seen across any further processing. -/
theorem foldl_seen_sub {env : Env} {s : StoreState} {x : String}
    (ls : List RawListing) (hx : x ∈ s.seen) :
    x ∈ (ls.foldl (store_one env) s).seen := by
  induction ls generalizing s with
  | nil => exact hx
  | cons b bs ih => exact ih (store_one_seen_sub hx)

/-- Any id seen after a batch was seen before or belongs to some listing of the batch. -/
theorem foldl_seen_from {env : Env} {s : StoreState} {x : String}
    {ls : List RawListing} (hx : x ∈ (ls.foldl (store_one env) s).seen) :
    x ∈ s.seen ∨ ∃ z ∈ ls, z.id = some x := by
  induction ls generalizing s with
  | nil => exact Or.inl hx
  | cons b bs ih =>
    rcases ih hx with h1 | ⟨z, hz, hzi⟩
    · rcases store_one_seen_from h1 with h2 | h2
      · exact Or.inl h2
      · exact Or.inr ⟨b, List.mem_cons_self b bs, h2⟩
    · exact Or.inr ⟨z, List.mem_cons_of_mem b hz, hzi⟩

/-- Processing a batch only appends to the upsert-call log. -/
theorem foldl_calls_extend (env : Env) (s : StoreState) (ls : List RawListing) :
    ∃ t, (ls.foldl (store_one env) s).calls = s.calls ++ t := by
  induction ls generalizing s with
  | nil => exact ⟨[], by simp⟩
  | cons b bs ih =>
    obtain ⟨t1, h1⟩ := store_one_calls_extend env s b
    obtain ⟨t2, h2⟩ := ih (s := store_one env s b)
    exact ⟨t1 ++ t2, by simp [List.foldl_cons, h2, h1]⟩

/-- Processing an unseen listing whose transform succeeds marks the id seen and appends exactly one upsert call built from it. -/
theorem store_one_process {env : Env} {s : StoreState} {x : RawListing} {i : String}
    {r : Restaurant} (hid : x.id = some i) (hnew : i ∉ s.seen)
    (ht : transform_to_restaurant x env.now = Except.ok r) :
    store_one env s x =
      { seen := i :: s.seen, calls := s.calls ++ [(r, env.upsertOk r)] } := by
  unfold store_one
  rw [hid]
  simp [hnew, ht]

/-- Processing an unseen listing whose transform raises marks the id seen and issues no call. -/
theorem store_one_fail {env : Env} {s : StoreState} {x : RawListing} {i : String}
    {e : String} (hid : x.id = some i) (hnew : i ∉ s.seen)
    (ht : transform_to_restaurant x env.now = Except.error e) :
    store_one env s x = { s with seen := i :: s.seen } := by
  unfold store_one
  rw [hid]
  simp [hnew, ht]

/-- Folding over a sequence of batches equals folding the loop body over their concatenation. -/
theorem batches_foldl_eq (env : Env) (bs : List (List RawListing)) (s : StoreState) :
    bs.foldl (fun s batch => (store_restaurants env s batch).1) s =
      bs.flatten.foldl (store_one env) s := by
  induction bs generalizing s with
  | nil => rfl
  | cons b rest ih =>
    rw [List.flatten_cons, List.foldl_append, List.foldl_cons]
    exact ih _

/-- A whole process lifetime is the fold of the loop body over the flattened batch sequence. -/
theorem runBatches_eq_foldl (env : Env) (bs : List (List RawListing)) :
    runBatches env bs = bs.flatten.foldl (store_one env) initState :=
  batches_foldl_eq env bs initState

/-- Claim C1: over a whole process lifetime the deduplicating writer issues at most one upsert call per external id, and whenever the first listing carrying an id normalizes successfully, exactly one upsert is performed for that id, with the record built from that first occurrence; every later occurrence is skipped with no further call. -/
theorem C1_dedup_single_upsert (env : Env) (batches : List (List RawListing)) (i : String) :
    (callsOf i (runBatches env batches).calls).length ≤ 1 ∧
    (∀ pre x post r,
      batches.flatten = pre ++ x :: post →
      x.id = some i →
      (∀ z ∈ pre, z.id ≠ some i) →
      transform_to_restaurant x env.now = Except.ok r →
      (callsOf i (runBatches env batches).calls).length = 1 ∧
      (r, env.upsertOk r) ∈ (runBatches env batches).calls) := by
  have hgood : GoodState (runBatches env batches).seen (runBatches env batches).calls := by
    rw [runBatches_eq_foldl]
    exact foldl_good good_init _
  refine ⟨(hgood i).1, ?_⟩
  intro pre x post r hsplit hx hpre ht
  have hrun : runBatches env batches =
      post.foldl (store_one env)
        { seen := i :: (pre.foldl (store_one env) initState).seen,
          calls := (pre.foldl (store_one env) initState).calls ++ [(r, env.upsertOk r)] } := by
    rw [runBatches_eq_foldl, hsplit, List.foldl_append, List.foldl_cons]
    congr 1
    apply store_one_process hx ?_ ht
    intro hmem
    rcases foldl_seen_from hmem with h1 | ⟨z, hz, hzi⟩
    · simp [initState] at h1
    · exact hpre z hz hzi
  have hmemcall : (r, env.upsertOk r) ∈ (runBatches env batches).calls := by
    rw [hrun]
    obtain ⟨t, hcalls⟩ := foldl_calls_extend env _ post
    rw [hcalls]
    simp
  have hne : callsOf i (runBatches env batches).calls ≠ [] := by
    have hpmem : (r, env.upsertOk r) ∈ callsOf i (runBatches env batches).calls := by
      apply List.mem_filter.mpr
      refine ⟨hmemcall, ?_⟩
      simp [transform_yelp_id ht, hx]
    intro hempty
    rw [hempty] at hpmem
    exact List.not_mem_nil _ hpmem
  have hpos : 0 < (callsOf i (runBatches env batches).calls).length :=
    List.length_pos.mpr hne
  exact ⟨Nat.le_antisymm (hgood i).1 hpos, hmemcall⟩

/-- Witness for C1 on a concrete batch holding two listings with the same external id. -/
theorem C1_dedup_single_upsert_witness :
    (callsOf idA (runBatches envAllOk [[listingA, listingADup]]).calls).length = 1 ∧
    (restA, true) ∈ (runBatches envAllOk [[listingA, listingADup]]).calls :=
  (C1_dedup_single_upsert envAllOk [[listingA, listingADup]] idA).2 [] listingA [listingADup] restA rfl rfl
    (fun z hz => absurd hz (List.not_mem_nil z)) rfl

/-- Counterexample to claim C2: on a batch of three listings whose second raises during transform, the writer performs two successful upserts yet returns None, not the success count 2, because the Python function has no return statement. -/
theorem C2_returns_count_counterexample :
    (store_restaurants envAllOk initState [listingA, listingBad, listingC]).2 = none ∧
    (store_restaurants envAllOk initState [listingA, listingBad, listingC]).2 ≠ some 2 ∧
    (List.filter (fun c => c.2)
      (store_restaurants envAllOk initState [listingA, listingBad, listingC]).1.calls).length
      = 2 := by
  refine ⟨rfl, ?_, ?_⟩
  · intro h
    exact Option.noConfusion h
  · rfl

/-- Claim C2 (amended): process_batch returns no count (the Python function returns None); nevertheless a per-listing failure does not abort the batch: with the second of three listings raising during transform, it still attempts and succeeds on listings 1 and 3, issuing exactly the two successful upserts. -/
theorem C2_partial_failure_amended :
    (transform_to_restaurant listingBad envAllOk.now).toOption = none ∧
    (store_restaurants envAllOk initState [listingA, listingBad, listingC]).1.calls =
      [(restA, true), (restC, true)] ∧
    (store_restaurants envAllOk initState [listingA, listingBad, listingC]).2 = none :=
  ⟨rfl, rfl, rfl⟩

/-- Counterexample to claim C3 as stated: the sync fetch variant returns the businesses array, not the empty list, on a non-200 status such as 201, because raise_for_status only raises for statuses 400..599. -/
theorem C3_sync_non200_counterexample :
    sync_search_restaurants (FetchOutcome.response 201 (some sampleBody)) = [sampleListing] ∧
    (201 : Nat) ≠ 200 := ⟨rfl, by decide⟩

/-- Claim C3 (amended): fetch never raises to its caller. Any transport or JSON-decoding exception yields the empty list in both variants. The async variant returns the empty list on every non-200 status and the businesses array, defaulting to empty, on a 200 response; the sync variant absorbs exactly the statuses 400..599 into the empty list and on any other status returns the decoded businesses array, defaulting to empty. -/
theorem C3_fetch_absorbed_amended :
    (∀ m, search_restaurants (FetchOutcome.exn m) = []) ∧
    (∀ st body, st ≠ 200 → search_restaurants (FetchOutcome.response st body) = []) ∧
    (∀ b, search_restaurants (FetchOutcome.response 200 (some b)) = b.businesses.getD []) ∧
    (∀ m, sync_search_restaurants (FetchOutcome.exn m) = []) ∧
    (∀ st body, 400 ≤ st → st < 600 →
      sync_search_restaurants (FetchOutcome.response st body) = []) ∧
    (∀ st b, ¬(400 ≤ st ∧ st < 600) →
      sync_search_restaurants (FetchOutcome.response st (some b)) = b.businesses.getD []) := by
  refine ⟨fun m => rfl, ?_, fun b => rfl, fun m => rfl, ?_, ?_⟩
  · intro st body hst
    simp [search_restaurants, hst]
  · intro st body h4 h6
    simp [sync_search_restaurants, h4, h6]
  · intro st b hst
    simp [sync_search_restaurants, hst]

/-- Witness for C3 at concrete statuses 500, 404 and 200. -/
theorem C3_fetch_absorbed_witness :
    search_restaurants (FetchOutcome.response 500 (some sampleBody)) = [] ∧
    sync_search_restaurants (FetchOutcome.response 404 (some sampleBody)) = [] ∧
    sync_search_restaurants (FetchOutcome.response 200 (some sampleBody)) =
      sampleBody.businesses.getD [] :=
  ⟨C3_fetch_absorbed_amended.2.1 500 (some sampleBody) (by decide),
   C3_fetch_absorbed_amended.2.2.2.2.1 404 (some sampleBody) (by decide) (by decide),
   C3_fetch_absorbed_amended.2.2.2.2.2 200 sampleBody (by decide)⟩

/-- Claim C4: in every successfully normalized record, main_cuisine is the title of the first category when the categories list is non-empty, and the literal Unknown when the list is empty or absent; being a mandatory string field it is never null or absent. -/
theorem C4_main_cuisine (b : RawListing) (now : Nat) (r : Restaurant)
    (h : transform_to_restaurant b now = Except.ok r) :
    (∀ c rest, b.categories = some (c :: rest) → c.title = some r.main_cuisine) ∧
    ((b.categories = some [] ∨ b.categories = none) → r.main_cuisine = unknownCuisine) := by
  obtain ⟨nm, coords, lat, lon, loc, cuisines, hn, hc, hla, hlo, hl, hm, hr⟩ :=
    transform_ok_elim h
  subst hr
  constructor
  · intro c rest hcats
    rw [hcats] at hm
    simp only [Option.getD] at hm
    obtain ⟨t, ts2, ht, -, hts⟩ := mapM_getKey_cons_elim hm
    subst hts
    simp [mkRestaurant, ht]
  · intro hcats
    have hnil : b.categories.getD [] = [] := by
      rcases hcats with h1 | h1 <;> rw [h1] <;> rfl
    rw [hnil] at hm
    have h0 : (Except.ok ([] : List String) : Except String (List String)) =
        Except.ok cuisines := hm
    have hcu : cuisines = [] := (Except.ok.inj h0).symm
    subst hcu
    simp [mkRestaurant]

/-- Witness for C4 on the sample listing with two categories. -/
theorem C4_main_cuisine_witness :
    transform_to_restaurant sampleListing 0 = Except.ok sampleRestaurant ∧
    dinerCat.title = some sampleRestaurant.main_cuisine :=
  ⟨rfl, (C4_main_cuisine sampleListing 0 sampleRestaurant rfl).1 dinerCat [americanCat] rfl⟩

/-- Counterexample to claim C5: a raw listing with name and full coordinates present but the location key absent still makes normalize raise, so name and coordinates are not the only fields whose absence raises. -/
theorem C5_only_two_fields_counterexample :
    noLocListing.name.isSome = true ∧ noLocListing.coordinates.isSome = true ∧
    (transform_to_restaurant noLocListing 0).toOption = none := ⟨rfl, rfl, rfl⟩

/-- Claim C5 (amended): normalize raises exactly when the raw listing lacks name, coordinates or one of its latitude/longitude sub-keys, location, or the title of some listed category; it succeeds on every listing carrying all of these. -/
theorem C5_raise_condition_amended (b : RawListing) (now : Nat) :
    (transform_to_restaurant b now).toOption.isSome = true ↔
      (b.name.isSome = true ∧
       (∃ coords, b.coordinates = some coords ∧
         coords.latitude.isSome = true ∧ coords.longitude.isSome = true) ∧
       b.location.isSome = true ∧
       ∀ cat ∈ b.categories.getD [], (cat.title).isSome = true) := by
  constructor
  · intro hsome
    cases ht : transform_to_restaurant b now with
    | error e => rw [ht] at hsome; simp [Except.toOption] at hsome
    | ok r =>
      obtain ⟨nm, coords, lat, lon, loc, cuisines, hn, hc, hla, hlo, hl, hm, -⟩ :=
        transform_ok_elim ht
      refine ⟨by simp [hn], ⟨coords, hc, by simp [hla], by simp [hlo]⟩, by simp [hl], ?_⟩
      exact (mapM_getKey_ok_iff (b.categories.getD [])).mp ⟨cuisines, hm⟩
  · rintro ⟨hn, ⟨coords, hc, hla, hlo⟩, hl, hall⟩
    obtain ⟨nm, hnm⟩ := Option.isSome_iff_exists.mp hn
    obtain ⟨lat, hlat⟩ := Option.isSome_iff_exists.mp hla
    obtain ⟨lon, hlon⟩ := Option.isSome_iff_exists.mp hlo
    obtain ⟨loc, hloc⟩ := Option.isSome_iff_exists.mp hl
    obtain ⟨ts, hts⟩ := (mapM_getKey_ok_iff (b.categories.getD [])).mpr hall
    rw [transform_intro b now nm coords lat lon loc ts hnm hc hlat hlon hloc hts]
    rfl

/-- Witness for C5 on the sample listing, which carries every required field. -/
theorem C5_raise_condition_witness :
    (transform_to_restaurant sampleListing 0).toOption.isSome = true :=
  (C5_raise_condition_amended sampleListing 0).mpr
    ⟨rfl, ⟨{ latitude := some 34, longitude := some (-118) }, rfl, rfl, rfl⟩, rfl, by decide⟩

/-- Claim C6: normalizing the same raw listing at two clock values yields the same outcome, and on success the records agree on every field except created_at and updated_at. -/
theorem C6_normalize_idempotent (b : RawListing) (n1 n2 : Nat) :
    (transform_to_restaurant b n1).map stripTimes =
      (transform_to_restaurant b n2).map stripTimes := by
  unfold transform_to_restaurant
  cases hm : (b.categories.getD []).mapM (fun cat => getKey cat.title) with
  | error e => simp [Bind.bind, Except.bind, Except.map]
  | ok cuisines =>
    cases hn : b.name with
    | none => simp [getKey, Bind.bind, Except.bind, Functor.map, Except.map, hn]
    | some nm =>
      cases hc : b.coordinates with
      | none => simp [getKey, Bind.bind, Except.bind, Functor.map, Except.map, hn, hc]
      | some coords =>
        cases hla : coords.latitude with
        | none => simp [getKey, Bind.bind, Except.bind, Functor.map, Except.map, hn, hc, hla]
        | some lat =>
          cases hlo : coords.longitude with
          | none =>
            simp [getKey, Bind.bind, Except.bind, Functor.map, Except.map, hn, hc, hla, hlo]
          | some lon =>
            cases hl : b.location with
            | none =>
              simp [getKey, Bind.bind, Except.bind, Functor.map, Except.map, hn, hc, hla, hlo, hl]
            | some loc =>
              simp [getKey, Bind.bind, Except.bind, Functor.map, Except.map, stripTimes,
                pure, Except.pure, hn, hc, hla, hlo, hl]

/-- Claim C7: in the normalized name, every character position holding a slash in the raw name holds a space, every other position is unchanged, and the length is preserved. -/
theorem C7_slash_to_space (b : RawListing) (now : Nat) (r : Restaurant) (nm : String)
    (h : transform_to_restaurant b now = Except.ok r) (hn : b.name = some nm) :
    r.name.data.length = nm.data.length ∧
    ∀ k : Nat, r.name.data[k]? =
      (nm.data[k]?).map (fun c => if c = slashChar then spaceChar else c) := by
  obtain ⟨nm2, coords, lat, lon, loc, cuisines, hn2, hc, hla, hlo, hl, hm, hr⟩ :=
    transform_ok_elim h
  rw [hn] at hn2
  cases hn2
  subst hr
  refine ⟨by simp [mkRestaurant, pyReplaceChar], ?_⟩
  intro k
  simp [mkRestaurant, pyReplaceChar, List.getElem?_map]

/-- Witness for C7 on the sample name containing a slash at position 4. -/
theorem C7_slash_to_space_witness :
    sampleRestaurant.name.data.length = sampleName.data.length ∧
    sampleRestaurant.name.data[4]? =
      (sampleName.data[4]?).map (fun c => if c = slashChar then spaceChar else c) :=
  ⟨(C7_slash_to_space sampleListing 0 sampleRestaurant sampleName rfl rfl).1,
   (C7_slash_to_space sampleListing 0 sampleRestaurant sampleName rfl rfl).2 4⟩

/-- Claim C8: the normalized address is the display-address lines joined with a comma-space separator in their original order, and a single-line address is returned unchanged. -/
theorem C8_address_joined (b : RawListing) (now : Nat) (r : Restaurant) (loc : YelpLocation)
    (h : transform_to_restaurant b now = Except.ok r) (hl : b.location = some loc) :
    r.address = String.intercalate commaSep (loc.display_address.getD []) ∧
    ∀ l, loc.display_address = some [l] → r.address = l := by
  obtain ⟨nm, coords, lat, lon, loc2, cuisines, hn, hc, hla, hlo, hl2, hm, hr⟩ :=
    transform_ok_elim h
  rw [hl] at hl2
  cases hl2
  subst hr
  refine ⟨by simp [mkRestaurant], ?_⟩
  intro l hd
  simp [mkRestaurant, hd, String.intercalate]
  rfl

/-- Witness for C8 on a two-line and a one-line display address. -/
theorem C8_address_joined_witness :
    sampleRestaurant.address =
      String.intercalate commaSep (sampleLoc.display_address.getD []) ∧
    restA.address = oneLineAddr :=
  ⟨(C8_address_joined sampleListing 0 sampleRestaurant sampleLoc rfl rfl).1,
   (C8_address_joined listingA 0 restA locA rfl rfl).2 oneLineAddr rfl⟩

/-- Claim C9: when fetch returns the empty listing list, the message handler sends no response message at all, whatever the writer state and the fate of the user-row update. -/
theorem C9_empty_fetch_silent (env : Env) (s : StoreState) (updateOk : Bool) (uid : String) :
    (handle_location_request env s updateOk [] uid).1 = none := rfl

/-- Claim C10: when a listing fails during transform or its store upsert fails, its external id was already added to the seen set and stays there, no successful write is recorded for it, and any later occurrence of that id in the same process lifetime leaves the writer state untouched. -/
theorem C10_failed_listing_not_retried (env : Env) (s : StoreState) (b : RawListing) (i : String)
    (hid : b.id = some i) (hnew : i ∉ s.seen)
    (hfail : (∃ e, transform_to_restaurant b env.now = Except.error e) ∨
      (∃ r, transform_to_restaurant b env.now = Except.ok r ∧ env.upsertOk r = false)) :
    i ∈ (store_one env s b).seen ∧
    List.filter (fun c => c.2) (store_one env s b).calls =
      List.filter (fun c => c.2) s.calls ∧
    ∀ (later : List RawListing) (z : RawListing), z.id = some i →
      store_one env (later.foldl (store_one env) (store_one env s b)) z =
        later.foldl (store_one env) (store_one env s b) := by
  have hshape : i ∈ (store_one env s b).seen ∧
      List.filter (fun c => c.2) (store_one env s b).calls =
        List.filter (fun c => c.2) s.calls := by
    rcases hfail with ⟨e, ht⟩ | ⟨r, ht, hup⟩
    · rw [store_one_fail hid hnew ht]
      exact ⟨List.mem_cons_self _ _, rfl⟩
    · rw [store_one_process hid hnew ht]
      refine ⟨List.mem_cons_self _ _, ?_⟩
      rw [List.filter_append]
      simp [hup]
  refine ⟨hshape.1, hshape.2, ?_⟩
  intro later z hz
  exact store_one_skip hz (foldl_seen_sub later hshape.1)

/-- Witness for C10: the listing with absent coordinates is marked seen, produces no successful write, and a later well-formed listing with the same id is skipped. -/
theorem C10_failed_listing_not_retried_witness :
    idB ∈ (store_one envAllOk initState listingBad).seen ∧
    List.filter (fun c => c.2) (store_one envAllOk initState listingBad).calls =
      List.filter (fun c => c.2) initState.calls ∧
    store_one envAllOk
        ([listingA].foldl (store_one envAllOk) (store_one envAllOk initState listingBad))
        listingBadRetry =
      [listingA].foldl (store_one envAllOk) (store_one envAllOk initState listingBad) :=
  ⟨(C10_failed_listing_not_retried envAllOk initState listingBad idB rfl (by simp [initState])
      (Or.inl ⟨keyError, rfl⟩)).1,
   (C10_failed_listing_not_retried envAllOk initState listingBad idB rfl (by simp [initState])
      (Or.inl ⟨keyError, rfl⟩)).2.1,
   (C10_failed_listing_not_retried envAllOk initState listingBad idB rfl (by simp [initState])
      (Or.inl ⟨keyError, rfl⟩)).2.2 [listingA] listingBadRetry rfl⟩

end RestaurantPipeline
